import Mathlib

/-!
Shallow embedding of `crm/schema.py` (graphene mutations over a relational
store) and verification of the frozen claims about it.

The relational store is modelled as `Storage`: lists of persisted customers,
products and orders plus fresh-id counters.  Each graphene mutation becomes a
pure Lean function on `Storage`:

* `CreateCustomer.mutate`     → `createCustomer`
* `BulkCreateCustomers.mutate`→ `bulkCreateCustomers` (loop body `bulkGo`)
* `CreateProduct.mutate`      → `createProduct`
* `CreateOrder.mutate`        → `createOrder`

Python exceptions that escape a mutation are modelled with `Except String`;
the bulk path catches per-record exceptions, so it returns a total
`BulkResult`.  A possible exception raised by `Customer.objects.create`
(a persistence fault of the store) is modelled by the parameter
`fault : CustomerInput → Option String`: `some msg` means the create raises
an exception whose text is `msg`, `none` means it succeeds.  `noFault` is
the store that never faults.  Decimal prices are modelled by `ℚ` (Python
`Decimal` arithmetic on the values occurring here is exact).
-/

/-- A single-quote character as a string (used in error-message literals). -/
def squote : String := "\x27"

/-- Input to customer creation (`CustomerInput` in the source): `name` and
`email` required, `phone` optional (`None` ↦ `none`). -/
structure CustomerInput where
  name : String
  email : String
  phone : Option String
deriving Repr, DecidableEq

/-- Input to product creation (`ProductInput`): `name` and `price` required,
`stock` optional (`None` ↦ `none`). -/
structure ProductInput where
  name : String
  price : ℚ
  stock : Option Int
deriving Repr, DecidableEq

/-- Input to order creation (`OrderInput`): required customer id, required
list of product ids, optional order date (a timestamp, modelled as `Int`). -/
structure OrderInput where
  customerId : Nat
  productIds : List Nat
  orderDate : Option Int
deriving Repr, DecidableEq

/-- A persisted customer row. -/
structure Customer where
  id : Nat
  name : String
  email : String
  phone : String
deriving Repr, DecidableEq

/-- A persisted product row. -/
structure Product where
  id : Nat
  name : String
  price : ℚ
  stock : Int
deriving Repr, DecidableEq

/-- A persisted order row; `productIds` is the many-to-many relation set by
`order.products.set(products)`. -/
structure Order where
  id : Nat
  customerId : Nat
  productIds : List Nat
  totalAmount : ℚ
  orderDate : Int
deriving Repr, DecidableEq

/-- The relational store backing the mutations. -/
structure Storage where
  customers : List Customer
  products : List Product
  orders : List Order
  nextCustomerId : Nat
  nextProductId : Nat
  nextOrderId : Nat
deriving Repr, DecidableEq

/-- Decidable equality of call results (used by concrete witnesses). -/
instance {ε α : Type} [DecidableEq ε] [DecidableEq α] : DecidableEq (Except ε α) := fun a b =>
  match a, b with
  | .ok x, .ok y =>
    if h : x = y then isTrue (by rw [h]) else isFalse (fun hh => by cases hh; exact h rfl)
  | .error x, .error y =>
    if h : x = y then isTrue (by rw [h]) else isFalse (fun hh => by cases hh; exact h rfl)
  | .ok _, .error _ => isFalse (fun hh => by cases hh)
  | .error _, .ok _ => isFalse (fun hh => by cases hh)

/-- The empty store. -/
def emptyStorage : Storage := ⟨[], [], [], 1, 1, 1⟩

/-- `Customer.objects.filter(email=e).exists()`. -/
def emailExists (st : Storage) (e : String) : Bool :=
  st.customers.any (fun c => c.email == e)

/-- `Customer.objects.create(name=..., email=..., phone=... )` followed by
`.save()`: append the row and bump the id counter. -/
def addCustomer (st : Storage) (c : Customer) : Storage :=
  { st with customers := st.customers ++ [c], nextCustomerId := st.nextCustomerId + 1 }

/-- Python truthiness of an optional string (`None` and `""` are falsy). -/
def strTruthy : Option String → Bool
  | some s => !s.isEmpty
  | none => false

/-- Whether a string matches the regex `^\+?\d{7,15}$|^\d{3}-\d{3}-\d{4}$`
from `CreateCustomer.mutate` (digits are ASCII `0-9`): either an optional
leading `+` followed by 7 to 15 digits, or `ddd-ddd-dddd`. -/
def phoneMatches (p : String) : Bool :=
  (let cs := p.data
   let ds := if cs.head? = some '+' then cs.tail else cs
   decide (7 ≤ ds.length) && decide (ds.length ≤ 15) && ds.all (·.isDigit))
  ||
  (match p.data with
   | [a, b, c, '-', d, e, f, '-', g, h, i, j] =>
     [a, b, c, d, e, f, g, h, i, j].all (·.isDigit)
   | _ => false)

/-- `CreateCustomer.mutate`: reject an existing email, reject a truthy phone
that matches neither pattern, otherwise persist (`phone or ""` stores the
blank string for an absent or empty phone) and return the new row. -/
def createCustomer (st : Storage) (inp : CustomerInput) : Except String (Storage × Customer) :=
  if emailExists st inp.email then
    .error "Email already exists."
  else if strTruthy inp.phone && !phoneMatches (inp.phone.getD "") then
    .error "Invalid phone format. Use +1234567890 or 123-456-7890"
  else
    let c : Customer := ⟨st.nextCustomerId, inp.name, inp.email, inp.phone.getD ""⟩
    .ok (addCustomer st c, c)

/-- `f"Email '{email}' already exists"`. -/
def dupMsg (e : String) : String :=
  "Email " ++ squote ++ e ++ squote ++ " already exists"

/-- `f"Error creating {email}: {str(exc)}"`. -/
def faultMsg (e msg : String) : String :=
  "Error creating " ++ e ++ ": " ++ msg

/-- Result of `BulkCreateCustomers.mutate`: the final store, the created
customers (`customers` field) and the error strings (`errors` field). -/
structure BulkResult where
  store : Storage
  customers : List Customer
  errors : List String
deriving Repr, DecidableEq

/-- The `for data in input` loop of `BulkCreateCustomers.mutate`: per
candidate, first the duplicate-email check (`continue` with an error),
then `Customer.objects.create`; an exception raised by the create (modelled
by `fault`) is caught and recorded, and the loop goes on. -/
def bulkGo (fault : CustomerInput → Option String) : Storage → List CustomerInput → BulkResult
  | st, [] => ⟨st, [], []⟩
  | st, d :: rest =>
    if emailExists st d.email then
      let r := bulkGo fault st rest
      ⟨r.store, r.customers, dupMsg d.email :: r.errors⟩
    else
      match fault d with
      | some msg =>
        let r := bulkGo fault st rest
        ⟨r.store, r.customers, faultMsg d.email msg :: r.errors⟩
      | none =>
        let c : Customer := ⟨st.nextCustomerId, d.name, d.email, d.phone.getD ""⟩
        let r := bulkGo fault (addCustomer st c) rest
        ⟨r.store, c :: r.customers, r.errors⟩

/-- A store whose `create` never raises. -/
def noFault : CustomerInput → Option String := fun _ => none

/-- `BulkCreateCustomers.mutate`: an empty input returns at once with the
single informational error; otherwise the loop runs over the whole batch. -/
def bulkCreateCustomers (fault : CustomerInput → Option String)
    (st : Storage) (input : List CustomerInput) : BulkResult :=
  if input.isEmpty then
    ⟨st, [], ["No customers provided"]⟩
  else
    bulkGo fault st input

/-- `CreateProduct.mutate`.  `D(input.price)` is the identity on the modelled
rationals.  When `stock` is absent, Python evaluates `input.stock < 0` as
`None < 0`, which raises `TypeError` (uncaught, so it escapes the call);
`stock=input.stock or 0` maps a provided `0` to `0` and keeps any other
value. -/
def createProduct (st : Storage) (inp : ProductInput) : Except String (Storage × Product) :=
  if inp.price ≤ 0 then
    .error "Price must be positive"
  else
    match inp.stock with
    | none =>
      .error ("TypeError: " ++ squote ++ "<" ++ squote ++ " not supported between instances of "
        ++ squote ++ "NoneType" ++ squote ++ " and " ++ squote ++ "int" ++ squote)
    | some s =>
      if s < 0 then
        .error "Stock cannot be negative"
      else
        let p : Product := ⟨st.nextProductId, inp.name, inp.price, if s = 0 then 0 else s⟩
        .ok ({ st with products := st.products ++ [p],
                       nextProductId := st.nextProductId + 1 }, p)

/-- `Customer.objects.get(id=i)`, `none` for `DoesNotExist`. -/
def getCustomer (st : Storage) (i : Nat) : Option Customer :=
  st.customers.find? (fun c => c.id == i)

/-- `Product.objects.get(id=i)`, `none` for `DoesNotExist`. -/
def getProduct (st : Storage) (i : Nat) : Option Product :=
  st.products.find? (fun p => p.id == i)

/-- `f"Customer ID {cid} does not exist"`. -/
def customerMissingMsg (cid : Nat) : String :=
  "Customer ID " ++ toString cid ++ " does not exist"

/-- `f"Product ID {pid} does not exist"`. -/
def productMissingMsg (pid : Nat) : String :=
  "Product ID " ++ toString pid ++ " does not exist"

/-- The product-validation loop of `CreateOrder.mutate`: fetch each product
in order, raising on the first id that does not exist, and accumulate the
fetched products and the running total of their current prices. -/
def collectProducts (st : Storage) : List Nat → Except String (List Product × ℚ)
  | [] => .ok ([], 0)
  | pid :: rest =>
    match getProduct st pid with
    | none => .error (productMissingMsg pid)
    | some p =>
      match collectProducts st rest with
      | .error msg => .error msg
      | .ok (ps, t) => .ok (p :: ps, p.price + t)

/-- `CreateOrder.mutate`: validate the customer, reject an empty product
list, validate the products while summing their current prices, then persist
the order (`order_date or now`) and set its product relation. -/
def createOrder (st : Storage) (now : Int) (inp : OrderInput) : Except String (Storage × Order) :=
  match getCustomer st inp.customerId with
  | none => .error (customerMissingMsg inp.customerId)
  | some customer =>
    if inp.productIds.isEmpty then
      .error "At least one product must be selected."
    else
      match collectProducts st inp.productIds with
      | .error msg => .error msg
      | .ok (products, totalAmount) =>
        let o : Order := ⟨st.nextOrderId, customer.id, products.map (·.id),
                          totalAmount, inp.orderDate.getD now⟩
        .ok ({ st with orders := st.orders ++ [o],
                       nextOrderId := st.nextOrderId + 1 }, o)

/-- The sum of the store's current prices over a list of product ids
(missing ids contribute nothing; on the success path of `createOrder` every
id is present).  Used to state that the persisted total is recomputed from
the store at call time. -/
def currentPriceSum (st : Storage) (pids : List Nat) : ℚ :=
  (pids.map (fun pid => match getProduct st pid with
    | some p => p.price
    | none => 0)).sum

/-- The `TypeError` text raised by `None < 0`. -/
def noneLtIntTypeError : String :=
  "TypeError: " ++ squote ++ "<" ++ squote ++ " not supported between instances of "
    ++ squote ++ "NoneType" ++ squote ++ " and " ++ squote ++ "int" ++ squote

/-- Specification-side characterisation of which candidate emails the
fault-free bulk loop accepts: an email is kept iff it duplicates neither the
already-stored emails nor an earlier kept candidate. -/
def freshEmails (stored : List String) : List CustomerInput → List String
  | [] => []
  | d :: rest =>
    if d.email ∈ stored then freshEmails stored rest
    else d.email :: freshEmails (stored ++ [d.email]) rest

/-- Specification-side characterisation of which candidate emails the
fault-free bulk loop rejects as duplicates (in submission order). -/
def dupEmails (stored : List String) : List CustomerInput → List String
  | [] => []
  | d :: rest =>
    if d.email ∈ stored then d.email :: dupEmails stored rest
    else dupEmails (stored ++ [d.email]) rest

lemma emailExists_iff (st : Storage) (e : String) :
    emailExists st e = true ↔ e ∈ st.customers.map (·.email) := by
  simp [emailExists, List.any_eq_true, List.mem_map]

lemma bulkGo_nil (fault : CustomerInput → Option String) (st : Storage) :
    bulkGo fault st [] = ⟨st, [], []⟩ := rfl

lemma bulkGo_cons_dup (fault : CustomerInput → Option String) (st : Storage)
    (d : CustomerInput) (rest : List CustomerInput)
    (h : emailExists st d.email = true) :
    bulkGo fault st (d :: rest) =
      ⟨(bulkGo fault st rest).store, (bulkGo fault st rest).customers,
        dupMsg d.email :: (bulkGo fault st rest).errors⟩ := by
  simp [bulkGo, h]

lemma bulkGo_cons_fault (fault : CustomerInput → Option String) (st : Storage)
    (d : CustomerInput) (rest : List CustomerInput) (msg : String)
    (h : emailExists st d.email = false) (hf : fault d = some msg) :
    bulkGo fault st (d :: rest) =
      ⟨(bulkGo fault st rest).store, (bulkGo fault st rest).customers,
        faultMsg d.email msg :: (bulkGo fault st rest).errors⟩ := by
  simp [bulkGo, h, hf]

lemma bulkGo_cons_ok (fault : CustomerInput → Option String) (st : Storage)
    (d : CustomerInput) (rest : List CustomerInput)
    (h : emailExists st d.email = false) (hf : fault d = none) :
    bulkGo fault st (d :: rest) =
      let c : Customer := ⟨st.nextCustomerId, d.name, d.email, d.phone.getD ""⟩
      ⟨(bulkGo fault (addCustomer st c) rest).store,
        c :: (bulkGo fault (addCustomer st c) rest).customers,
        (bulkGo fault (addCustomer st c) rest).errors⟩ := by
  simp [bulkGo, h, hf]

lemma addCustomer_emails (st : Storage) (c : Customer) :
    (addCustomer st c).customers.map (·.email) = st.customers.map (·.email) ++ [c.email] := by
  simp [addCustomer]

/-- The store after the loop holds exactly the old rows followed by the
newly created ones, in order. -/
lemma bulkGo_store_customers (fault : CustomerInput → Option String) :
    ∀ (input : List CustomerInput) (st : Storage),
      (bulkGo fault st input).store.customers
        = st.customers ++ (bulkGo fault st input).customers := by
  intro input
  induction input with
  | nil => intro st; simp [bulkGo_nil]
  | cons d rest ih =>
    intro st
    by_cases h : emailExists st d.email
    · rw [bulkGo_cons_dup fault st d rest h]
      simpa using ih st
    · rw [Bool.not_eq_true] at h
      cases hf : fault d with
      | some msg =>
        rw [bulkGo_cons_fault fault st d rest msg h hf]
        simpa using ih st
      | none =>
        rw [bulkGo_cons_ok fault st d rest h hf]
        simp only [ih (addCustomer st ⟨st.nextCustomerId, d.name, d.email, d.phone.getD ""⟩)]
        simp [addCustomer]

/-- Other tables and the product/order counters are untouched by the loop. -/
lemma bulkGo_store_rest (fault : CustomerInput → Option String) :
    ∀ (input : List CustomerInput) (st : Storage),
      (bulkGo fault st input).store.products = st.products ∧
      (bulkGo fault st input).store.orders = st.orders := by
  intro input
  induction input with
  | nil => intro st; simp [bulkGo_nil]
  | cons d rest ih =>
    intro st
    by_cases h : emailExists st d.email
    · rw [bulkGo_cons_dup fault st d rest h]; simpa using ih st
    · rw [Bool.not_eq_true] at h
      cases hf : fault d with
      | some msg =>
        rw [bulkGo_cons_fault fault st d rest msg h hf]; simpa using ih st
      | none =>
        rw [bulkGo_cons_ok fault st d rest h hf]
        simpa [addCustomer] using
          ih (addCustomer st ⟨st.nextCustomerId, d.name, d.email, d.phone.getD ""⟩)

/-- Each candidate contributes exactly one success or exactly one error. -/
lemma bulkGo_length (fault : CustomerInput → Option String) :
    ∀ (input : List CustomerInput) (st : Storage),
      (bulkGo fault st input).customers.length + (bulkGo fault st input).errors.length
        = input.length := by
  intro input
  induction input with
  | nil => intro st; simp [bulkGo_nil]
  | cons d rest ih =>
    intro st
    by_cases h : emailExists st d.email
    · rw [bulkGo_cons_dup fault st d rest h]
      have := ih st; simp at this ⊢; omega
    · rw [Bool.not_eq_true] at h
      cases hf : fault d with
      | some msg =>
        rw [bulkGo_cons_fault fault st d rest msg h hf]
        have := ih st; simp at this ⊢; omega
      | none =>
        rw [bulkGo_cons_ok fault st d rest h hf]
        have := ih (addCustomer st ⟨st.nextCustomerId, d.name, d.email, d.phone.getD ""⟩)
        simp at this ⊢; omega

lemma bulkGo_customers_length_le (fault : CustomerInput → Option String)
    (input : List CustomerInput) (st : Storage) :
    (bulkGo fault st input).customers.length ≤ input.length := by
  have := bulkGo_length fault input st
  omega

/-- When every candidate's email is already stored, the loop only collects
duplicate errors: no row is created and the store is untouched. -/
lemma bulkGo_all_dup (fault : CustomerInput → Option String) :
    ∀ (input : List CustomerInput) (st : Storage),
      (∀ d ∈ input, emailExists st d.email = true) →
      bulkGo fault st input = ⟨st, [], input.map (fun d => dupMsg d.email)⟩ := by
  intro input
  induction input with
  | nil => intro st _; simp [bulkGo_nil]
  | cons d rest ih =>
    intro st hall
    have hd : emailExists st d.email = true := hall d (by simp)
    rw [bulkGo_cons_dup fault st d rest hd]
    rw [ih st (fun x hx => hall x (by simp [hx]))]
    simp

/-- If every candidate succeeded, the created rows carry exactly the
candidates' emails, in order. -/
lemma bulkGo_all_success_emails (fault : CustomerInput → Option String) :
    ∀ (input : List CustomerInput) (st : Storage),
      (bulkGo fault st input).customers.length = input.length →
      (bulkGo fault st input).customers.map (·.email) = input.map (·.email) := by
  intro input
  induction input with
  | nil => intro st _; simp [bulkGo_nil]
  | cons d rest ih =>
    intro st hlen
    by_cases h : emailExists st d.email
    · rw [bulkGo_cons_dup fault st d rest h] at hlen
      have hle := bulkGo_customers_length_le fault rest st
      simp at hlen; omega
    · rw [Bool.not_eq_true] at h
      cases hf : fault d with
      | some msg =>
        rw [bulkGo_cons_fault fault st d rest msg h hf] at hlen
        have hle := bulkGo_customers_length_le fault rest st
        simp at hlen; omega
      | none =>
        rw [bulkGo_cons_ok fault st d rest h hf] at hlen ⊢
        have hlen2 :
            (bulkGo fault
              (addCustomer st ⟨st.nextCustomerId, d.name, d.email, d.phone.getD ""⟩)
              rest).customers.length = rest.length := by
          simp at hlen; omega
        simpa using ih _ hlen2

/-- Characterisation of the fault-free loop: the accepted rows carry exactly
the fresh emails and the error list is exactly the duplicate emails, each
wrapped in the duplicate-key message. -/
lemma bulkGo_noFault_spec :
    ∀ (input : List CustomerInput) (st : Storage),
      (bulkGo noFault st input).customers.map (·.email)
          = freshEmails (st.customers.map (·.email)) input ∧
      (bulkGo noFault st input).errors
          = (dupEmails (st.customers.map (·.email)) input).map dupMsg := by
  intro input
  induction input with
  | nil => intro st; simp [bulkGo_nil, freshEmails, dupEmails]
  | cons d rest ih =>
    intro st
    by_cases h : emailExists st d.email
    · have hm : d.email ∈ st.customers.map (·.email) := (emailExists_iff st d.email).1 h
      rw [bulkGo_cons_dup noFault st d rest h]
      have hr := ih st
      simp [freshEmails, dupEmails, hm, hr.1, hr.2]
    · have hm : d.email ∉ st.customers.map (·.email) := by
        rw [← emailExists_iff st d.email]; simpa using h
      rw [Bool.not_eq_true] at h
      rw [bulkGo_cons_ok noFault st d rest h rfl]
      have hr := ih (addCustomer st ⟨st.nextCustomerId, d.name, d.email, d.phone.getD ""⟩)
      rw [addCustomer_emails] at hr
      simp [freshEmails, dupEmails, hm] at hr ⊢
      exact ⟨hr.1, hr.2⟩

/-- The fresh emails of a batch are pairwise distinct and disjoint from the
stored ones. -/
lemma freshEmails_nodup_avoid :
    ∀ (input : List CustomerInput) (stored : List String),
      (freshEmails stored input).Nodup ∧ ∀ e ∈ freshEmails stored input, e ∉ stored := by
  intro input
  induction input with
  | nil => intro stored; simp [freshEmails]
  | cons d rest ih =>
    intro stored
    by_cases h : d.email ∈ stored
    · simpa [freshEmails, h] using ih stored
    · have iht := ih (stored ++ [d.email])
      have hstep : freshEmails stored (d :: rest)
          = d.email :: freshEmails (stored ++ [d.email]) rest := by
        simp [freshEmails, h]
      rw [hstep]
      constructor
      · rw [List.nodup_cons]
        refine ⟨fun hmem => ?_, iht.1⟩
        have := iht.2 d.email hmem
        simp at this
      · intro e he
        rcases List.mem_cons.1 he with rfl | he2
        · exact h
        · intro hes
          exact iht.2 e he2 (by simp [hes])

/-- On the success path, the accumulated total is the sum of the store's
current prices over the requested ids. -/
lemma collectProducts_ok_total (st : Storage) :
    ∀ (pids : List Nat) (ps : List Product) (t : ℚ),
      collectProducts st pids = .ok (ps, t) → t = currentPriceSum st pids := by
  intro pids
  induction pids with
  | nil =>
    intro ps t h
    simp [collectProducts] at h
    simp [currentPriceSum, ← h.2]
  | cons pid rest ih =>
    intro ps t h
    cases hg : getProduct st pid with
    | none => simp [collectProducts, hg] at h
    | some p =>
      cases hc : collectProducts st rest with
      | error msg => simp [collectProducts, hg, hc] at h
      | ok pr =>
        obtain ⟨ps0, t0⟩ := pr
        simp [collectProducts, hg, hc] at h
        have ht0 := ih ps0 t0 hc
        simp [currentPriceSum, hg] at ht0 ⊢
        rw [← h.2, ht0]

/-- If some requested product id is absent, the validation loop raises the
message naming a missing id. -/
lemma collectProducts_error_of_missing (st : Storage) :
    ∀ (pids : List Nat), (∃ pid ∈ pids, getProduct st pid = none) →
      ∃ pid ∈ pids, getProduct st pid = none ∧
        collectProducts st pids = .error (productMissingMsg pid) := by
  intro pids
  induction pids with
  | nil => intro h; simp at h
  | cons q rest ih =>
    intro h
    cases hg : getProduct st q with
    | none => exact ⟨q, by simp, hg, by simp [collectProducts, hg]⟩
    | some p =>
      have hrest : ∃ pid ∈ rest, getProduct st pid = none := by
        rcases h with ⟨pid, hmem, hnone⟩
        rcases List.mem_cons.1 hmem with rfl | hm
        · rw [hg] at hnone; cases hnone
        · exact ⟨pid, hm, hnone⟩
      obtain ⟨pid, hm, hnone, herr⟩ := ih hrest
      exact ⟨pid, by simp [hm], hnone, by simp [collectProducts, hg, herr]⟩

/-- A demo store holding one customer whose email is `a@x.com` (used in
concrete witnesses). -/
def storeA : Storage := ⟨[⟨1, "A", "a@x.com", ""⟩], [], [], 2, 1, 1⟩

/-- Claim C9: on the empty input sequence, bulk ingestion returns at once
with no successes and exactly the one informational error entry, and the
store (all tables and counters) is untouched. -/
theorem bulk_empty_input_informational (fault : CustomerInput → Option String)
    (st : Storage) :
    bulkCreateCustomers fault st [] = ⟨st, [], ["No customers provided"]⟩ := rfl

/-- Claim C2: for every non-empty batch, each candidate contributes exactly
one success or exactly one error, so successes plus failed candidates equal
the input length.  (On the empty batch no candidate fails; the single error
entry returned there is the informational one of C9, tied to no candidate.) -/
theorem bulk_success_error_partition (fault : CustomerInput → Option String)
    (st : Storage) (input : List CustomerInput) (h : input ≠ []) :
    (bulkCreateCustomers fault st input).customers.length
      + (bulkCreateCustomers fault st input).errors.length = input.length := by
  have hne : input.isEmpty = false := by simpa [List.isEmpty_iff] using h
  simpa [bulkCreateCustomers, hne] using bulkGo_length fault input st

/-- Witness for C2 at a concrete batch with one success and one duplicate. -/
theorem bulk_success_error_partition_witness :
    (bulkCreateCustomers noFault emptyStorage
        [⟨"A", "a@x.com", none⟩, ⟨"B", "a@x.com", none⟩]).customers.length
      + (bulkCreateCustomers noFault emptyStorage
        [⟨"A", "a@x.com", none⟩, ⟨"B", "a@x.com", none⟩]).errors.length = 2 :=
  bulk_success_error_partition noFault emptyStorage
    [⟨"A", "a@x.com", none⟩, ⟨"B", "a@x.com", none⟩] (by decide)

/-- Claim C10: the bulk path omits the phone-format check of single-record
creation: the phone `"abc"` makes `createCustomer` reject, yet the very same
candidate is persisted by bulk ingestion (it ends up both in the returned
successes and in the store). -/
theorem bulk_omits_phone_check :
    createCustomer emptyStorage ⟨"Alice", "alice@x.com", some "abc"⟩
        = .error "Invalid phone format. Use +1234567890 or 123-456-7890" ∧
      (bulkCreateCustomers noFault emptyStorage
        [⟨"Alice", "alice@x.com", some "abc"⟩]).customers
        = [⟨1, "Alice", "alice@x.com", "abc"⟩] ∧
      (bulkCreateCustomers noFault emptyStorage
        [⟨"Alice", "alice@x.com", some "abc"⟩]).store.customers
        = [⟨1, "Alice", "alice@x.com", "abc"⟩] := by
  refine ⟨rfl, by decide, by decide⟩

/-- Claim C3: a per-record failure — duplicate key, or a persistence fault
of the store's create — appends exactly one error string built from the
candidate's email (and, for a fault, the fault text), and the loop then
processes the remaining candidates from the very same store: nothing is
aborted and no other candidate's write is reverted.  (Per-record errors are
returned as data: `bulkGo` is a total function into `BulkResult`, so they
never escape the call.) -/
theorem bulk_per_record_failure_isolated (fault : CustomerInput → Option String)
    (st : Storage) (d : CustomerInput) (rest : List CustomerInput) :
    (emailExists st d.email = true →
      bulkGo fault st (d :: rest)
        = ⟨(bulkGo fault st rest).store, (bulkGo fault st rest).customers,
            dupMsg d.email :: (bulkGo fault st rest).errors⟩) ∧
    (∀ msg, emailExists st d.email = false → fault d = some msg →
      bulkGo fault st (d :: rest)
        = ⟨(bulkGo fault st rest).store, (bulkGo fault st rest).customers,
            faultMsg d.email msg :: (bulkGo fault st rest).errors⟩) :=
  ⟨fun h => bulkGo_cons_dup fault st d rest h,
   fun msg h hf => bulkGo_cons_fault fault st d rest msg h hf⟩

/-- Witness for C3: a concrete duplicate rejection and a concrete
persistence fault, each leaving the store as the remaining loop leaves it. -/
theorem bulk_per_record_failure_isolated_witness :
    bulkGo noFault storeA [⟨"B", "a@x.com", none⟩]
        = ⟨storeA, [], [dupMsg "a@x.com"]⟩ ∧
      bulkGo (fun _ => some "boom") emptyStorage [⟨"B", "b@x.com", none⟩]
        = ⟨emptyStorage, [], [faultMsg "b@x.com" "boom"]⟩ :=
  ⟨(bulk_per_record_failure_isolated noFault storeA ⟨"B", "a@x.com", none⟩ []).1
      (by decide),
   (bulk_per_record_failure_isolated (fun _ => some "boom") emptyStorage
      ⟨"B", "b@x.com", none⟩ []).2 "boom" (by decide) rfl⟩

/-- Claim C1: for every non-empty batch (fault-free store), the accepted
rows carry exactly the emails that duplicate neither a stored record nor an
earlier candidate (`freshEmails`), each duplicate candidate — and only it —
gets the duplicate-key error (`dupEmails`, in submission order), the
persisted emails of the batch are pairwise distinct, and none of them
collides with an already-stored record: at most one record per unique email,
regardless of which duplicate appears first. -/
theorem bulk_unique_email_per_batch (st : Storage) (input : List CustomerInput)
    (h : input ≠ []) :
    (bulkCreateCustomers noFault st input).customers.map (·.email)
        = freshEmails (st.customers.map (·.email)) input ∧
      (bulkCreateCustomers noFault st input).errors
        = (dupEmails (st.customers.map (·.email)) input).map dupMsg ∧
      ((bulkCreateCustomers noFault st input).customers.map (·.email)).Nodup ∧
      (∀ c ∈ (bulkCreateCustomers noFault st input).customers,
        c.email ∉ st.customers.map (·.email)) := by
  have hne : input.isEmpty = false := by simpa [List.isEmpty_iff] using h
  have hbulk : bulkCreateCustomers noFault st input = bulkGo noFault st input := by
    simp [bulkCreateCustomers, hne]
  have hspec := bulkGo_noFault_spec input st
  have hfe := freshEmails_nodup_avoid input (st.customers.map (·.email))
  rw [hbulk]
  refine ⟨hspec.1, hspec.2, ?_, ?_⟩
  · rw [hspec.1]; exact hfe.1
  · intro c hc
    apply hfe.2
    rw [← hspec.1]
    exact List.mem_map_of_mem _ hc

/-- Witness for C1 at the spec scenario: batch A/a@x.com, B/a@x.com,
C/c@x.com against the empty store. -/
theorem bulk_unique_email_per_batch_witness :
    (bulkCreateCustomers noFault emptyStorage
        [⟨"A", "a@x.com", none⟩, ⟨"B", "a@x.com", none⟩, ⟨"C", "c@x.com", none⟩]).customers.map
          (·.email)
        = freshEmails (emptyStorage.customers.map (·.email))
            [⟨"A", "a@x.com", none⟩, ⟨"B", "a@x.com", none⟩, ⟨"C", "c@x.com", none⟩] ∧
      (bulkCreateCustomers noFault emptyStorage
        [⟨"A", "a@x.com", none⟩, ⟨"B", "a@x.com", none⟩, ⟨"C", "c@x.com", none⟩]).errors
        = (dupEmails (emptyStorage.customers.map (·.email))
            [⟨"A", "a@x.com", none⟩, ⟨"B", "a@x.com", none⟩, ⟨"C", "c@x.com", none⟩]).map dupMsg ∧
      ((bulkCreateCustomers noFault emptyStorage
        [⟨"A", "a@x.com", none⟩, ⟨"B", "a@x.com", none⟩, ⟨"C", "c@x.com", none⟩]).customers.map
          (·.email)).Nodup ∧
      (∀ c ∈ (bulkCreateCustomers noFault emptyStorage
        [⟨"A", "a@x.com", none⟩, ⟨"B", "a@x.com", none⟩, ⟨"C", "c@x.com", none⟩]).customers,
        c.email ∉ emptyStorage.customers.map (·.email)) :=
  bulk_unique_email_per_batch emptyStorage
    [⟨"A", "a@x.com", none⟩, ⟨"B", "a@x.com", none⟩, ⟨"C", "c@x.com", none⟩] (by decide)

/-- Claim C8: if every candidate of a batch succeeded (the returned
successes have the batch's full length), resubmitting the same batch against
the resulting store — under any fault behaviour of the second call — creates
nothing and, for a non-empty batch, yields exactly one duplicate-key error
per candidate.  The second call depends only on the persisted store: there is
no other deduplication memory. -/
theorem bulk_resubmission_all_duplicates
    (fault fault2 : CustomerInput → Option String) (st : Storage)
    (input : List CustomerInput)
    (h : (bulkCreateCustomers fault st input).customers.length = input.length) :
    (bulkCreateCustomers fault2 (bulkCreateCustomers fault st input).store
        input).customers = [] ∧
      (input ≠ [] →
        (bulkCreateCustomers fault2 (bulkCreateCustomers fault st input).store
            input).errors = input.map (fun d => dupMsg d.email)) := by
  cases hinp : input with
  | nil => constructor <;> simp [bulkCreateCustomers]
  | cons d rest =>
    rw [← hinp]
    have hne : input.isEmpty = false := by simp [hinp]
    have h1 : bulkCreateCustomers fault st input = bulkGo fault st input := by
      simp [bulkCreateCustomers, hne]
    rw [h1] at h ⊢
    have hst := bulkGo_store_customers fault input st
    have hmails := bulkGo_all_success_emails fault input st h
    have hall : ∀ x ∈ input, emailExists (bulkGo fault st input).store x.email = true := by
      intro x hx
      rw [emailExists_iff, hst, List.map_append, hmails]
      refine List.mem_append.2 (Or.inr ?_)
      exact List.mem_map_of_mem _ hx
    have h2 : bulkCreateCustomers fault2 (bulkGo fault st input).store input
        = bulkGo fault2 (bulkGo fault st input).store input := by
      simp [bulkCreateCustomers, hne]
    rw [h2, bulkGo_all_dup fault2 input _ hall]
    exact ⟨rfl, fun _ => rfl⟩

/-- Witness for C8: one candidate succeeds against the empty store;
resubmitting it yields no success and its duplicate-key error. -/
theorem bulk_resubmission_all_duplicates_witness :
    (bulkCreateCustomers noFault
        (bulkCreateCustomers noFault emptyStorage [⟨"A", "a@x.com", none⟩]).store
        [⟨"A", "a@x.com", none⟩]).customers = [] ∧
      ([(⟨"A", "a@x.com", none⟩ : CustomerInput)] ≠ [] →
        (bulkCreateCustomers noFault
          (bulkCreateCustomers noFault emptyStorage [⟨"A", "a@x.com", none⟩]).store
          [⟨"A", "a@x.com", none⟩]).errors
          = ([⟨"A", "a@x.com", none⟩] : List CustomerInput).map (fun d => dupMsg d.email)) :=
  bulk_resubmission_all_duplicates noFault noFault emptyStorage
    [⟨"A", "a@x.com", none⟩] (by decide)

/-- Claim C4: whenever the referenced customer id or any referenced product
id is absent from the store, the whole create-order call returns an error —
so nothing is persisted — and the error message names a missing id (the
customer id, or the first missing product id when the customer exists). -/
theorem createOrder_rejects_missing_reference (st : Storage) (now : Int)
    (inp : OrderInput)
    (h : getCustomer st inp.customerId = none ∨
      ∃ pid ∈ inp.productIds, getProduct st pid = none) :
    ∃ msg, createOrder st now inp = .error msg ∧
      ((getCustomer st inp.customerId = none ∧ msg = customerMissingMsg inp.customerId) ∨
       (∃ pid ∈ inp.productIds, getProduct st pid = none ∧ msg = productMissingMsg pid)) := by
  cases hc : getCustomer st inp.customerId with
  | none =>
    exact ⟨customerMissingMsg inp.customerId, by simp [createOrder, hc],
      Or.inl ⟨rfl, rfl⟩⟩
  | some customer =>
    have hp : ∃ pid ∈ inp.productIds, getProduct st pid = none := by
      rcases h with hcn | hp
      · rw [hc] at hcn; cases hcn
      · exact hp
    obtain ⟨pid, hm, hnone, herr⟩ := collectProducts_error_of_missing st inp.productIds hp
    have hne : inp.productIds.isEmpty = false := by
      cases hl : inp.productIds with
      | nil => rw [hl] at hm; simp at hm
      | cons a as => rfl
    refine ⟨productMissingMsg pid, ?_, Or.inr ⟨pid, hm, hnone, rfl⟩⟩
    simp [createOrder, hc, hne, herr]

/-- Witness for C4: a store with customer 1 and product 1; an order naming
product ids 1 and 99 is rejected with a message naming a missing id. -/
theorem createOrder_rejects_missing_reference_witness :
    ∃ msg, createOrder ⟨[⟨1, "A", "a@x.com", ""⟩], [⟨1, "P", 2, 1⟩], [], 2, 2, 1⟩ 0
        ⟨1, [1, 99], none⟩ = .error msg ∧
      ((getCustomer ⟨[⟨1, "A", "a@x.com", ""⟩], [⟨1, "P", 2, 1⟩], [], 2, 2, 1⟩ 1 = none ∧
          msg = customerMissingMsg 1) ∨
       (∃ pid ∈ [1, 99],
          getProduct ⟨[⟨1, "A", "a@x.com", ""⟩], [⟨1, "P", 2, 1⟩], [], 2, 2, 1⟩ pid = none ∧
          msg = productMissingMsg pid)) :=
  createOrder_rejects_missing_reference
    ⟨[⟨1, "A", "a@x.com", ""⟩], [⟨1, "P", 2, 1⟩], [], 2, 2, 1⟩ 0 ⟨1, [1, 99], none⟩
    (Or.inr ⟨99, by decide, by decide⟩)

/-- Claim C5 (code bug): with `stock` absent, `input.stock < 0` compares
`None` with `0`, which raises `TypeError` in Python 3 — the call fails and
nothing is persisted, instead of creating the product with the default
stock `0` intended by `stock=input.stock or 0`.  The second conjunct records
that the explicit scenario of the claim (price `-5`) is rejected as stated. -/
theorem createProduct_absent_stock_type_error :
    createProduct emptyStorage ⟨"Widget", 5, none⟩ = .error noneLtIntTypeError ∧
      createProduct emptyStorage ⟨"Widget", -5, some 3⟩ = .error "Price must be positive" :=
  ⟨rfl, rfl⟩

/-- Claim C6, counterexample: the claim demands rejection of an empty name,
an empty email and a supplied phone (`""`) matching neither pattern, yet the
call with all three persists a customer on the empty store — name and email
emptiness are never checked, and a falsy phone skips the format check. -/
theorem createCustomer_accepts_empty_fields :
    createCustomer emptyStorage ⟨"", "", some ""⟩
      = .ok (⟨[⟨1, "", "", ""⟩], [], [], 2, 1, 1⟩, ⟨1, "", "", ""⟩) := rfl

/-- Claim C6 as amended: create-customer rejects the call exactly when the
email is already stored, or a truthy (present and non-empty) phone matches
neither `^\+?\d{7,15}$` nor `^\d{3}-\d{3}-\d{4}$`; emptiness of name and
email is not checked.  A rejected call returns no store, so it persists
nothing. -/
theorem createCustomer_validation_characterisation (st : Storage) (inp : CustomerInput) :
    (∃ msg, createCustomer st inp = .error msg)
      ↔ (emailExists st inp.email = true ∨
          (strTruthy inp.phone = true ∧ phoneMatches (inp.phone.getD "") = false)) := by
  cases h1 : emailExists st inp.email with
  | true => simp [createCustomer, h1]
  | false =>
    cases h2 : strTruthy inp.phone with
    | false => simp [createCustomer, h1, h2]
    | true =>
      cases h3 : phoneMatches (inp.phone.getD "") with
      | false => simp [createCustomer, h1, h2, h3]
      | true => simp [createCustomer, h1, h2, h3]

/-- Claim C7: every successful create-order call persists a total equal to
the sum, recomputed from the store at call time, of the referenced products'
current prices (with multiplicity, in submission order). -/
theorem createOrder_total_recomputed (st : Storage) (now : Int) (inp : OrderInput)
    (st2 : Storage) (o : Order) (h : createOrder st now inp = .ok (st2, o)) :
    o.totalAmount = currentPriceSum st inp.productIds := by
  cases hc : getCustomer st inp.customerId with
  | none => simp [createOrder, hc] at h
  | some customer =>
    cases he : inp.productIds.isEmpty with
    | true => simp [createOrder, hc, he] at h
    | false =>
      cases hcp : collectProducts st inp.productIds with
      | error msg => simp [createOrder, hc, he, hcp] at h
      | ok pr =>
        obtain ⟨ps, t⟩ := pr
        have ht := collectProducts_ok_total st inp.productIds ps t hcp
        simp [createOrder, hc, he, hcp] at h
        rw [← h.2]
        simpa using ht

/-- Witness for C7: customer 1 and products 1 (price 3/2) and 2 (price 2);
ordering ids [1, 2, 2] persists as total the accumulated sum
3/2 + (2 + (2 + 0)) = 11/2, the recomputed current-price sum. -/
theorem createOrder_total_recomputed_witness :
    (⟨1, 1, [1, 2, 2], 3/2 + (2 + (2 + 0)), 0⟩ : Order).totalAmount
      = currentPriceSum ⟨[⟨1, "A", "a@x.com", ""⟩], [⟨1, "P", 3/2, 4⟩, ⟨2, "Q", 2, 7⟩], [], 2, 3, 1⟩
          [1, 2, 2] :=
  createOrder_total_recomputed
    ⟨[⟨1, "A", "a@x.com", ""⟩], [⟨1, "P", 3/2, 4⟩, ⟨2, "Q", 2, 7⟩], [], 2, 3, 1⟩ 0
    ⟨1, [1, 2, 2], none⟩
    ⟨[⟨1, "A", "a@x.com", ""⟩], [⟨1, "P", 3/2, 4⟩, ⟨2, "Q", 2, 7⟩],
      [⟨1, 1, [1, 2, 2], 3/2 + (2 + (2 + 0)), 0⟩], 2, 3, 2⟩
    ⟨1, 1, [1, 2, 2], 3/2 + (2 + (2 + 0)), 0⟩ rfl
